import Mathlib

/-!
Formal model of the core logic of `lab_connecting_python_sql.py`:
the Fetcher `rentals_month`, the Aggregator `rental_count_month`
and the Comparator `compare_rentals`, together with proofs of the
specification's testable properties.

Modelling conventions:
* A SQL result set / pandas DataFrame of rental rows is a `List RentalEvent`.
* A per-customer counts DataFrame is a `Table`: the `customer_id` column is
  kept implicitly as the first component of every row, the remaining columns
  are `valueCols` with the row values aligned positionally.
* pandas `merge(..., on="customer_id", how="inner")` is modelled including
  its suffixing of colliding non-key column names with `_x` / `_y`.
* Python exceptions of `compare_rentals` are modelled with `Except`:
  the schema `ValueError` and the `KeyError` raised by a column lookup
  on a missing label.
-/

namespace Sakila

/-- A SQL timestamp, split into the calendar fields the query inspects
(`YEAR(rental_date)` and `MONTH(rental_date)`) plus a remainder `sub`
(day of month and time of day, encoded as one number) that only
participates in chronological ordering. -/
structure Timestamp where
  year : Nat
  month : Nat
  sub : Nat
deriving DecidableEq

/-- One row of the Sakila `rental` table as selected by `rentals_month`:
`SELECT rental_id, rental_date, customer_id FROM rental`. -/
structure RentalEvent where
  rental_id : Nat
  rental_date : Timestamp
  customer_id : Int
deriving DecidableEq

/-- Chronological order on timestamps: lexicographic on
(year, month, remainder). This is exactly the order `ORDER BY rental_date`
uses, since a timestamp compares by its calendar fields from most to least
significant. -/
def dateLe (t u : Timestamp) : Prop :=
  t.year < u.year ∨
    (t.year = u.year ∧ (t.month < u.month ∨ (t.month = u.month ∧ t.sub ≤ u.sub)))

instance : DecidableRel dateLe := fun t u => by
  unfold dateLe; exact inferInstance

instance : IsTotal Timestamp dateLe :=
  ⟨fun a b => by unfold dateLe; omega⟩

instance : IsTrans Timestamp dateLe :=
  ⟨fun _ _ _ hab hbc => by unfold dateLe at hab hbc ⊢; omega⟩

/-- Order on rental rows induced by their timestamps (`ORDER BY rental_date`). -/
def eventLe (a b : RentalEvent) : Prop :=
  dateLe a.rental_date b.rental_date

instance : DecidableRel eventLe := fun a b => by
  unfold eventLe; exact inferInstance

instance : IsTotal RentalEvent eventLe :=
  ⟨fun a b => IsTotal.total (r := dateLe) a.rental_date b.rental_date⟩

instance : IsTrans RentalEvent eventLe :=
  ⟨fun _ _ _ hab hbc => IsTrans.trans (r := dateLe) _ _ _ hab hbc⟩

/-- Model of `rentals_month(engine, month, year)`: the SQL query
`SELECT rental_id, rental_date, customer_id FROM rental
WHERE YEAR(rental_date) = :year AND MONTH(rental_date) = :month
ORDER BY rental_date` over a data source modelled as a list of rows. -/
def rentals_month (source : List RentalEvent) (month year : Nat) : List RentalEvent :=
  List.insertionSort eventLe
    (source.filter fun r => r.rental_date.year == year && r.rental_date.month == month)

/-- Model of Python's `f"{month:02d}"`: decimal digits of `month`,
left-padded with `0` to width two. -/
def pad2 (n : Nat) : String :=
  if n < 10 then "0" ++ Nat.repr n else Nat.repr n

/-- Model of `col_name = f"rentals_{month_str}_{year}"` in `rental_count_month`. -/
def monthColName (month year : Nat) : String :=
  "rentals_" ++ pad2 month ++ "_" ++ Nat.repr year

/-- A counts DataFrame: the `customer_id` key column is the first component
of each row, and `valueCols` names the remaining columns, whose values are
stored positionally in the second component of each row. -/
structure Table where
  valueCols : List String
  rows : List (Int × List Int)
deriving DecidableEq

/-- Model of `rental_count_month(df_rentals, month, year)`:
`df_rentals.groupby("customer_id", as_index=False)["rental_id"].count()
.rename(columns=\x7b"rental_id": col_name\x7d)`.
pandas groups by the distinct `customer_id` keys (sorted ascending, the
groupby default), and counts the `rental_id` entries of each group, i.e.
the number of input rows carrying that key. -/
def rental_count_month (df : List RentalEvent) (month year : Nat) : Table :=
  { valueCols := [monthColName month year]
    rows :=
      (List.insertionSort (fun a b : Int => a ≤ b)
          (df.map fun r => r.customer_id).dedup).map
        fun k => (k, [(df.countP (fun r => r.customer_id == k) : Int)]) }

/-- The two exceptions `compare_rentals` can raise: the schema `ValueError`
and the `KeyError` of a lookup `df_merged[col]` on an absent column label. -/
inductive CompareError where
  | schemaError : CompareError
  | keyError : String → CompareError
deriving DecidableEq

/-- `a` is a prefix of `b`, on character lists (Python `str.startswith`). -/
def isPrefixList : List Char → List Char → Bool
  | [], _ => true
  | _ :: _, [] => false
  | a :: as, b :: bs => a == b && isPrefixList as bs

/-- Python's `s.startswith(pre)`. -/
def pyStartsWith (s pre : String) : Bool :=
  isPrefixList pre.data s.data

/-- The column-recognition test of `compare_rentals`:
`c.startswith("rentals_")`. -/
def isRentalsCol (c : String) : Bool :=
  pyStartsWith c "rentals_"

/-- `[c for c in df.columns if c.startswith("rentals_")]`. -/
def rentalsCols (df : Table) : List String :=
  df.valueCols.filter isRentalsCol

/-- The schema validation of `compare_rentals`: `some c` when the table has
exactly one `rentals_*` column `c`, `none` when it has zero or several
(the `ValueError` case). -/
def onlyRentalsCol (df : Table) : Option String :=
  match rentalsCols df with
  | [c] => some c
  | _ => none

/-- Column labels of `df_counts_1.merge(df_counts_2, on="customer_id",
how="inner")`: left value columns then right value columns, where a label
present in both tables gets pandas' default suffix `_x` on the left copy
and `_y` on the right copy. -/
def mergedColumns (df1 df2 : Table) : List String :=
  (df1.valueCols.map fun c => if c ∈ df2.valueCols then c ++ "_x" else c) ++
    (df2.valueCols.map fun c => if c ∈ df1.valueCols then c ++ "_y" else c)

/-- Rows of the inner merge on `customer_id`: for each left row, in order,
every right row with the same key, the value lists concatenated. -/
def mergeRows (df1 df2 : Table) : List (Int × List Int) :=
  (df1.rows.map fun l =>
      (df2.rows.filter fun r => r.1 == l.1).map fun r => (l.1, l.2 ++ r.2)).flatten

/-- Index of the first column with label `t`, `none` when the label is
absent (pandas raises `KeyError`). -/
def lookupCol : List String → String → Option Nat
  | [], _ => none
  | c :: cs, t => if c = t then some 0 else (lookupCol cs t).map (· + 1)

/-- Value of a row at column index `i`. -/
def valAt (vs : List Int) (i : Nat) : Int :=
  vs.getD i 0

/-- The merge-and-subtract part of `compare_rentals`, reached after schema
validation found the single count columns `col1` and `col2`:
`df_merged = df_counts_1.merge(df_counts_2, on="customer_id", how="inner")`
then `df_merged["difference"] = df_merged[col_2] - df_merged[col_1]`
(the lookup of `col_2` is evaluated first, and a missing label raises
`KeyError`). -/
def compareWith (df1 df2 : Table) (col1 col2 : String) : Except CompareError Table :=
  match lookupCol (mergedColumns df1 df2) col2, lookupCol (mergedColumns df1 df2) col1 with
  | some i2, some i1 =>
      Except.ok
        { valueCols := mergedColumns df1 df2 ++ ["difference"]
          rows := (mergeRows df1 df2).map fun row =>
            (row.1, row.2 ++ [valAt row.2 i2 - valAt row.2 i1]) }
  | none, _ => Except.error (CompareError.keyError col2)
  | some _, none => Except.error (CompareError.keyError col1)

/-- Model of `compare_rentals(df_counts_1, df_counts_2)`: raise the schema
`ValueError` unless each input has exactly one `rentals_*` column, then
inner-merge on `customer_id` and append the `difference` column. -/
def compare_rentals (df1 df2 : Table) : Except CompareError Table :=
  match onlyRentalsCol df1, onlyRentalsCol df2 with
  | some c1, some c2 => compareWith df1 df2 c1 c2
  | _, _ => Except.error CompareError.schemaError

/-- The column name as the specification words it: `rentals_<MM>_<YYYY>`,
with the month's decimal digits left-padded with zeros to width two and
the year's decimal digits used verbatim. -/
def specMonthCol (month year : Nat) : String :=
  "rentals_" ++
    (if (Nat.repr month).length < 2 then "0" ++ Nat.repr month else Nat.repr month) ++
    "_" ++ Nat.repr year

/-! ### Supporting lemmas -/

theorem mem_mergeRows {df1 df2 : Table} {row : Int × List Int} :
    row ∈ mergeRows df1 df2 ↔
      ∃ l ∈ df1.rows, ∃ r ∈ df2.rows, r.1 = l.1 ∧ row = (l.1, l.2 ++ r.2) := by
  unfold mergeRows
  rw [List.mem_flatten]
  constructor
  · rintro ⟨L, hL, hrow⟩
    rw [List.mem_map] at hL
    rcases hL with ⟨l, hl, rfl⟩
    rw [List.mem_map] at hrow
    rcases hrow with ⟨r, hrf, hr2⟩
    rw [List.mem_filter] at hrf
    exact ⟨l, hl, r, hrf.1, beq_iff_eq.mp hrf.2, hr2.symm⟩
  · rintro ⟨l, hl, r, hr, hkey, rfl⟩
    refine ⟨(df2.rows.filter fun r => r.1 == l.1).map fun r => (l.1, l.2 ++ r.2), ?_, ?_⟩
    · rw [List.mem_map]
      exact ⟨l, hl, rfl⟩
    · rw [List.mem_map]
      refine ⟨r, ?_, rfl⟩
      rw [List.mem_filter]
      exact ⟨hr, beq_iff_eq.mpr hkey⟩

theorem lookupCol_eq_none_iff (cols : List String) (t : String) :
    lookupCol cols t = none ↔ t ∉ cols := by
  induction cols with
  | nil => simp [lookupCol]
  | cons c cs ih =>
    by_cases h : c = t
    · subst h
      simp [lookupCol]
    · simp only [lookupCol, if_neg h, Option.map_eq_none', ih, List.mem_cons]
      constructor
      · rintro hn (rfl | hm)
        · exact h rfl
        · exact hn hm
      · intro hn hm
        exact hn (Or.inr hm)

theorem onlyRentalsCol_eq_some_iff {df : Table} {c : String} :
    onlyRentalsCol df = some c ↔ rentalsCols df = [c] := by
  unfold onlyRentalsCol
  cases h : rentalsCols df with
  | nil => simp
  | cons a t =>
    cases t with
    | nil => simp
    | cons b t2 => simp

theorem onlyRentalsCol_eq_none_iff {df : Table} :
    onlyRentalsCol df = none ↔ (rentalsCols df).length ≠ 1 := by
  unfold onlyRentalsCol
  cases h : rentalsCols df with
  | nil => simp
  | cons a t =>
    cases t with
    | nil => simp
    | cons b t2 =>
      simp only [List.length_cons]
      constructor
      · intro _
        omega
      · intro _
        trivial

theorem compareWith_ne_schemaError (df1 df2 : Table) (c1 c2 : String) :
    compareWith df1 df2 c1 c2 ≠ Except.error CompareError.schemaError := by
  unfold compareWith
  cases h2 : lookupCol (mergedColumns df1 df2) c2 <;>
    cases h1 : lookupCol (mergedColumns df1 df2) c1 <;> simp

theorem compare_rentals_ok_inv {df1 df2 out : Table}
    (h : compare_rentals df1 df2 = Except.ok out) :
    ∃ c1 c2 i2 i1,
      onlyRentalsCol df1 = some c1 ∧ onlyRentalsCol df2 = some c2 ∧
      lookupCol (mergedColumns df1 df2) c2 = some i2 ∧
      lookupCol (mergedColumns df1 df2) c1 = some i1 ∧
      out.valueCols = mergedColumns df1 df2 ++ ["difference"] ∧
      out.rows = (mergeRows df1 df2).map fun row =>
        (row.1, row.2 ++ [valAt row.2 i2 - valAt row.2 i1]) := by
  unfold compare_rentals at h
  cases hc1 : onlyRentalsCol df1 with
  | none => rw [hc1] at h; simp at h
  | some c1 =>
    cases hc2 : onlyRentalsCol df2 with
    | none => rw [hc1, hc2] at h; simp at h
    | some c2 =>
      rw [hc1, hc2] at h
      simp only [] at h
      unfold compareWith at h
      cases hl2 : lookupCol (mergedColumns df1 df2) c2 with
      | none => rw [hl2] at h; simp at h
      | some i2 =>
        cases hl1 : lookupCol (mergedColumns df1 df2) c1 with
        | none => rw [hl2, hl1] at h; simp at h
        | some i1 =>
          rw [hl2, hl1] at h
          simp only [Except.ok.injEq] at h
          exact ⟨c1, c2, i2, i1, rfl, rfl, hl2, hl1, by rw [← h], by rw [← h]⟩

theorem compare_rentals_eq_ok {df1 df2 : Table} {c1 c2 : String} {i2 i1 : Nat}
    (hc1 : onlyRentalsCol df1 = some c1) (hc2 : onlyRentalsCol df2 = some c2)
    (hl2 : lookupCol (mergedColumns df1 df2) c2 = some i2)
    (hl1 : lookupCol (mergedColumns df1 df2) c1 = some i1) :
    compare_rentals df1 df2 =
      Except.ok
        { valueCols := mergedColumns df1 df2 ++ ["difference"]
          rows := (mergeRows df1 df2).map fun row =>
            (row.1, row.2 ++ [valAt row.2 i2 - valAt row.2 i1]) } := by
  have hstep : compare_rentals df1 df2 = compareWith df1 df2 c1 c2 := by
    unfold compare_rentals
    rw [hc1, hc2]
  rw [hstep]
  unfold compareWith
  rw [hl2, hl1]

theorem mem_countKeys_iff (df : List RentalEvent) (k : Int) :
    (k ∈ List.insertionSort (fun a b : Int => a ≤ b) (df.map fun r => r.customer_id).dedup) ↔
      ∃ r ∈ df, r.customer_id = k := by
  rw [(List.perm_insertionSort (fun a b : Int => a ≤ b) _).mem_iff, List.mem_dedup]
  simp only [List.mem_map]

theorem onlyRentalsCol_mem {df : Table} {c : String} (h : onlyRentalsCol df = some c) :
    c ∈ df.valueCols ∧ isRentalsCol c = true := by
  rw [onlyRentalsCol_eq_some_iff] at h
  have hc : c ∈ rentalsCols df := by
    rw [h]
    exact List.mem_singleton_self c
  rw [rentalsCols, List.mem_filter] at hc
  exact hc

theorem onlyRentalsCol_single {c c' : String} {rows : List (Int × List Int)}
    (h : onlyRentalsCol ⟨[c], rows⟩ = some c') : c' = c ∧ isRentalsCol c = true := by
  rw [onlyRentalsCol_eq_some_iff] at h
  unfold rentalsCols at h
  simp only [List.filter_cons, List.filter_nil] at h
  by_cases hb : isRentalsCol c
  · rw [if_pos hb] at h
    injection h with h1 h2
    exact ⟨h1.symm, hb⟩
  · rw [if_neg hb] at h
    simp at h

theorem ne_append_x (s : String) : s ≠ s ++ "_x" := by
  intro h
  have hl := congrArg String.length h
  rw [String.length_append] at hl
  have h2 : ("_x" : String).length = 2 := rfl
  omega

theorem ne_append_y (s : String) : s ≠ s ++ "_y" := by
  intro h
  have hl := congrArg String.length h
  rw [String.length_append] at hl
  have h2 : ("_y" : String).length = 2 := rfl
  omega

theorem compare_rentals_ok_of_distinct {df1 df2 : Table} {c1 c2 : String}
    (hc1 : onlyRentalsCol df1 = some c1) (hc2 : onlyRentalsCol df2 = some c2)
    (hne : c1 ≠ c2) :
    c1 ∈ mergedColumns df1 df2 ∧ c2 ∈ mergedColumns df1 df2 ∧
      ∃ i2 i1, lookupCol (mergedColumns df1 df2) c2 = some i2 ∧
        lookupCol (mergedColumns df1 df2) c1 = some i1 := by
  obtain ⟨hm1, hr1⟩ := onlyRentalsCol_mem hc1
  obtain ⟨hm2, hr2⟩ := onlyRentalsCol_mem hc2
  rw [onlyRentalsCol_eq_some_iff] at hc1 hc2
  have hn12 : c1 ∉ df2.valueCols := by
    intro hmem
    have : c1 ∈ rentalsCols df2 := by
      rw [rentalsCols, List.mem_filter]
      exact ⟨hmem, hr1⟩
    rw [hc2, List.mem_singleton] at this
    exact hne this
  have hn21 : c2 ∉ df1.valueCols := by
    intro hmem
    have : c2 ∈ rentalsCols df1 := by
      rw [rentalsCols, List.mem_filter]
      exact ⟨hmem, hr2⟩
    rw [hc1, List.mem_singleton] at this
    exact hne this.symm
  have hin1 : c1 ∈ mergedColumns df1 df2 := by
    unfold mergedColumns
    refine List.mem_append_left _ ?_
    rw [List.mem_map]
    exact ⟨c1, hm1, by rw [if_neg hn12]⟩
  have hin2 : c2 ∈ mergedColumns df1 df2 := by
    unfold mergedColumns
    refine List.mem_append_right _ ?_
    rw [List.mem_map]
    exact ⟨c2, hm2, by rw [if_neg hn21]⟩
  refine ⟨hin1, hin2, ?_⟩
  have hl2 : ∃ i, lookupCol (mergedColumns df1 df2) c2 = some i := by
    cases hl : lookupCol (mergedColumns df1 df2) c2 with
    | none =>
      rw [lookupCol_eq_none_iff] at hl
      exact absurd hin2 hl
    | some i => exact ⟨i, rfl⟩
  have hl1 : ∃ i, lookupCol (mergedColumns df1 df2) c1 = some i := by
    cases hl : lookupCol (mergedColumns df1 df2) c1 with
    | none =>
      rw [lookupCol_eq_none_iff] at hl
      exact absurd hin1 hl
    | some i => exact ⟨i, rfl⟩
  obtain ⟨i2, h2⟩ := hl2
  obtain ⟨i1, h1⟩ := hl1
  exact ⟨i2, i1, h2, h1⟩

/-! ### Claim theorems -/

/-- C1: for every input sequence of `RentalEvent` rows, the count that
`rental_count_month` reports for a given `customer_id` equals the number of
input rows carrying that `customer_id`, and the output has a row for a
`customer_id` if and only if that `customer_id` appears in at least one
input row. -/
theorem rental_count_month_count_correct (df : List RentalEvent) (month year : Nat) (k : Int) :
    (∀ v, (k, v) ∈ (rental_count_month df month year).rows →
        v = [(df.countP (fun r => r.customer_id == k) : Int)]) ∧
    ((∃ v, (k, v) ∈ (rental_count_month df month year).rows) ↔
        ∃ r ∈ df, r.customer_id = k) := by
  constructor
  · intro v hv
    simp only [rental_count_month, List.mem_map] at hv
    rcases hv with ⟨k', hk', heq⟩
    rw [Prod.mk.injEq] at heq
    rcases heq with ⟨rfl, rfl⟩
    rfl
  · constructor
    · rintro ⟨v, hv⟩
      simp only [rental_count_month, List.mem_map] at hv
      rcases hv with ⟨k', hk', heq⟩
      rw [Prod.mk.injEq] at heq
      rcases heq with ⟨rfl, -⟩
      exact (mem_countKeys_iff df k').mp hk'
    · intro hex
      refine ⟨[(df.countP (fun r => r.customer_id == k) : Int)], ?_⟩
      simp only [rental_count_month, List.mem_map]
      exact ⟨k, (mem_countKeys_iff df k).mpr hex, rfl⟩

/-- Witness for C1 at a concrete input: two rows for customer 7, one for
customer 3; customer 7 has a row and its count row is `[2]`. -/
theorem rental_count_month_count_correct_witness :
    (∃ v, ((7 : Int), v) ∈
        (rental_count_month
          [⟨1, ⟨2005, 5, 1⟩, 7⟩, ⟨2, ⟨2005, 5, 2⟩, 3⟩, ⟨3, ⟨2005, 5, 3⟩, 7⟩] 5 2005).rows) ↔
      ∃ r ∈ [(⟨1, ⟨2005, 5, 1⟩, 7⟩ : RentalEvent), ⟨2, ⟨2005, 5, 2⟩, 3⟩, ⟨3, ⟨2005, 5, 3⟩, 7⟩],
        r.customer_id = 7 :=
  (rental_count_month_count_correct
    [⟨1, ⟨2005, 5, 1⟩, 7⟩, ⟨2, ⟨2005, 5, 2⟩, 3⟩, ⟨3, ⟨2005, 5, 3⟩, 7⟩] 5 2005 7).2

/-- C4: for every month in 1..12 and every year, the count column produced
by `rental_count_month` is named `rentals_<MM>_<YYYY>`, the month
zero-padded to two decimal digits and the year used verbatim. -/
theorem rental_count_month_column_name (df : List RentalEvent) (month year : Nat)
    (h1 : 1 ≤ month) (h2 : month ≤ 12) :
    (rental_count_month df month year).valueCols = [specMonthCol month year] := by
  have hp : pad2 month =
      (if (Nat.repr month).length < 2 then "0" ++ Nat.repr month else Nat.repr month) := by
    interval_cases month <;> rfl
  show [monthColName month year] = [specMonthCol month year]
  unfold monthColName specMonthCol
  rw [hp]

/-- Witness for C4: month 5, year 2005 gives exactly `rentals_05_2005`, and
month 12, year 1999 gives exactly `rentals_12_1999`. -/
theorem rental_count_month_column_name_witness :
    (rental_count_month [] 5 2005).valueCols = ["rentals_05_2005"] ∧
    (rental_count_month [] 12 1999).valueCols = ["rentals_12_1999"] :=
  ⟨rental_count_month_column_name [] 5 2005 (by decide) (by decide),
   rental_count_month_column_name [] 12 1999 (by decide) (by decide)⟩

/-- C8: for every data source (a set of rental rows) and every month/year,
`rentals_month` returns exactly the rows whose timestamp has that calendar
year and month, ordered by rental timestamp ascending. -/
theorem rentals_month_filter_and_order (source : List RentalEvent) (month year : Nat) :
    (∀ r : RentalEvent, r ∈ rentals_month source month year ↔
        (r ∈ source ∧ r.rental_date.year = year ∧ r.rental_date.month = month)) ∧
    (rentals_month source month year).Sorted eventLe := by
  constructor
  · intro r
    rw [rentals_month, (List.perm_insertionSort eventLe _).mem_iff, List.mem_filter]
    simp only [Bool.and_eq_true, beq_iff_eq]
  · exact List.sorted_insertionSort eventLe _

/-- C9: every count value in `rental_count_month`'s output is at least 1: a
customer gets a row only by being observed in the input, so its row count is
positive. -/
theorem rental_count_month_counts_pos (df : List RentalEvent) (month year : Nat) :
    ∀ row ∈ (rental_count_month df month year).rows, ∀ v ∈ row.2, 1 ≤ v := by
  intro row hrow v hv
  simp only [rental_count_month, List.mem_map] at hrow
  rcases hrow with ⟨k, hk, rfl⟩
  simp only [List.mem_singleton] at hv
  subst hv
  rcases (mem_countKeys_iff df k).mp hk with ⟨r, hr, hrk⟩
  have hpos : 0 < df.countP (fun r => r.customer_id == k) := by
    rw [List.countP_pos_iff]
    exact ⟨r, hr, by simp [hrk]⟩
  exact_mod_cast hpos

/-- Witness for C9: on a one-row input the single output row is
`(7, [1])`, and the theorem yields `1 ≤ 1` for its count value. -/
theorem rental_count_month_counts_pos_witness : (1 : Int) ≤ 1 :=
  rental_count_month_counts_pos [⟨1, ⟨2005, 5, 1⟩, 7⟩] 5 2005
    (7, [1]) (by simp [rental_count_month, mem_countKeys_iff]) 1 (by simp)

/-- C10: a column is recognized as a count column exactly when its name
starts with `rentals_`: the table whose single `rentals_`-prefixed column is
`rentals_foo` (not parseable back to month/year) passes validation and is
compared without error, while a table whose column differs from the prefix
only in case is rejected with the schema error. -/
theorem compare_rentals_prefix_recognition :
    compare_rentals ⟨["rentals_foo"], [(1, [2])]⟩ ⟨["rentals_06_2005"], [(1, [5])]⟩ =
      Except.ok ⟨["rentals_foo", "rentals_06_2005", "difference"], [(1, [2, 5, 3])]⟩ ∧
    compare_rentals ⟨["Rentals_05_2005"], [(1, [2])]⟩ ⟨["rentals_06_2005"], [(1, [5])]⟩ =
      Except.error CompareError.schemaError :=
  ⟨rfl, rfl⟩

/-- C2: whenever `compare_rentals` produces an output, a `customer_id` has a
row in the output if and only if it has a row in both inputs: the output key
set is exactly the intersection, never a strict superset or subset. -/
theorem compare_rentals_intersection {df1 df2 out : Table}
    (h : compare_rentals df1 df2 = Except.ok out) (k : Int) :
    (∃ row ∈ out.rows, row.1 = k) ↔
      ((∃ l ∈ df1.rows, l.1 = k) ∧ (∃ r ∈ df2.rows, r.1 = k)) := by
  rcases compare_rentals_ok_inv h with ⟨c1, c2, i2, i1, -, -, -, -, -, hrows⟩
  rw [hrows]
  constructor
  · rintro ⟨row, hrow, hk⟩
    rw [List.mem_map] at hrow
    rcases hrow with ⟨m, hm, rfl⟩
    rcases mem_mergeRows.mp hm with ⟨l, hl, r, hr, hkey, rfl⟩
    exact ⟨⟨l, hl, hk⟩, ⟨r, hr, hkey.trans hk⟩⟩
  · rintro ⟨⟨l, hl, hlk⟩, r, hr, hrk⟩
    exact ⟨_, List.mem_map_of_mem _
      (mem_mergeRows.mpr ⟨l, hl, r, hr, hrk.trans hlk.symm, rfl⟩), hlk⟩

/-- Witness for C2 at concrete inputs: customer 1 is in both tables and in
the output; customer 2 is only in the second table. -/
theorem compare_rentals_intersection_witness :
    (∃ row ∈ (Table.mk ["rentals_05_2005", "rentals_06_2005", "difference"]
        [((1 : Int), [(3 : Int), 5, 2])]).rows, row.1 = 1) ↔
      ((∃ l ∈ [((1 : Int), [(3 : Int)])], l.1 = 1) ∧
       (∃ r ∈ [((1 : Int), [(5 : Int)]), (2, [1])], r.1 = 1)) :=
  @compare_rentals_intersection ⟨["rentals_05_2005"], [(1, [3])]⟩
    ⟨["rentals_06_2005"], [(1, [5]), (2, [1])]⟩
    ⟨["rentals_05_2005", "rentals_06_2005", "difference"], [(1, [3, 5, 2])]⟩ rfl 1

/-- C3: for two single-count-column tables (the `CustomerCount` shape), every
output row of `compare_rentals` is `(k, [va, vb, vb - va])` where `va` is
customer `k`'s count in the first input and `vb` its count in the second:
the difference column is exactly the second count minus the first, signed. -/
theorem compare_rentals_difference_correct (c1 c2 : String)
    (rows1 rows2 : List (Int × List Int)) (out : Table)
    (hw1 : ∀ l ∈ rows1, ∃ v, l.2 = [v]) (hw2 : ∀ r ∈ rows2, ∃ v, r.2 = [v])
    (h : compare_rentals ⟨[c1], rows1⟩ ⟨[c2], rows2⟩ = Except.ok out) :
    ∀ row ∈ out.rows, ∃ k va vb, row = (k, [va, vb, vb - va]) ∧
      (k, [va]) ∈ rows1 ∧ (k, [vb]) ∈ rows2 := by
  rcases compare_rentals_ok_inv h with ⟨c1', c2', i2, i1, hc1, hc2, hl2, hl1, -, hrows⟩
  have he1 := (onlyRentalsCol_single hc1).1.symm
  have he2 := (onlyRentalsCol_single hc2).1.symm
  subst he1
  subst he2
  have hne : c1 ≠ c2 := by
    intro he
    subst he
    have hmc : mergedColumns ⟨[c1], rows1⟩ ⟨[c1], rows2⟩ = [c1 ++ "_x", c1 ++ "_y"] := by
      unfold mergedColumns
      simp
    rw [hmc] at hl2
    have hn : lookupCol [c1 ++ "_x", c1 ++ "_y"] c1 = none := by
      rw [lookupCol_eq_none_iff]
      intro hmem
      rcases List.mem_cons.mp hmem with he1 | hmem2
      · exact ne_append_x c1 he1
      · rw [List.mem_singleton] at hmem2
        exact ne_append_y c1 hmem2
    rw [hn] at hl2
    cases hl2
  have hmc : mergedColumns ⟨[c1], rows1⟩ ⟨[c2], rows2⟩ = [c1, c2] := by
    unfold mergedColumns
    simp [List.mem_singleton, hne, Ne.symm hne]
  rw [hmc] at hl2 hl1
  have hv2 : lookupCol [c1, c2] c2 = some 1 := by
    unfold lookupCol
    rw [if_neg hne]
    unfold lookupCol
    rw [if_pos rfl]
    rfl
  have hv1 : lookupCol [c1, c2] c1 = some 0 := by
    unfold lookupCol
    rw [if_pos rfl]
  have hi2 : i2 = 1 := by
    rw [hv2] at hl2
    injection hl2 with h'
    omega
  have hi1 : i1 = 0 := by
    rw [hv1] at hl1
    injection hl1 with h'
    omega
  intro row hrow
  rw [hrows] at hrow
  rw [List.mem_map] at hrow
  rcases hrow with ⟨m, hm, rfl⟩
  rcases mem_mergeRows.mp hm with ⟨l, hl, r, hr, hkey, rfl⟩
  obtain ⟨va, hva⟩ := hw1 l hl
  obtain ⟨vb, hvb⟩ := hw2 r hr
  refine ⟨l.1, va, vb, ?_, ?_, ?_⟩
  · simp only [hva, hvb, hi2, hi1]
    rfl
  · rw [← hva]
    exact hl
  · rw [← hvb, ← hkey]
    exact hr

/-- Witness for C3 at concrete inputs: the single output row for customer 1
is `(1, [3, 5, 2])` with `2 = 5 - 3`. -/
theorem compare_rentals_difference_correct_witness :
    ∃ k va vb, ((1 : Int), [(3 : Int), 5, 2]) = (k, [va, vb, vb - va]) ∧
      (k, [va]) ∈ [((1 : Int), [(3 : Int)])] ∧ (k, [vb]) ∈ [((1 : Int), [(5 : Int)])] :=
  compare_rentals_difference_correct "rentals_05_2005" "rentals_06_2005"
    [(1, [3])] [(1, [5])]
    ⟨["rentals_05_2005", "rentals_06_2005", "difference"], [(1, [3, 5, 2])]⟩
    (by
      rintro l hl
      rw [List.mem_singleton] at hl
      subst hl
      exact ⟨3, rfl⟩)
    (by
      rintro r hr
      rw [List.mem_singleton] at hr
      subst hr
      exact ⟨5, rfl⟩)
    rfl
    (1, [3, 5, 2]) (List.mem_singleton_self _)

/-- C5: `compare_rentals` fails with the schema error, producing no output,
exactly when at least one input has zero or more than one recognized
(`rentals_*`-prefixed) count column; when both inputs have exactly one, the
schema error is never raised. -/
theorem compare_rentals_schema_error_iff (df1 df2 : Table) :
    compare_rentals df1 df2 = Except.error CompareError.schemaError ↔
      ((rentalsCols df1).length = 0 ∨ 1 < (rentalsCols df1).length ∨
       (rentalsCols df2).length = 0 ∨ 1 < (rentalsCols df2).length) := by
  unfold compare_rentals
  cases hA : onlyRentalsCol df1 with
  | none =>
    rw [onlyRentalsCol_eq_none_iff] at hA
    cases hB : onlyRentalsCol df2 with
    | none =>
      constructor
      · intro _
        omega
      · intro _
        rfl
    | some c2 =>
      constructor
      · intro _
        omega
      · intro _
        rfl
  | some c1 =>
    rw [onlyRentalsCol_eq_some_iff] at hA
    cases hB : onlyRentalsCol df2 with
    | none =>
      rw [onlyRentalsCol_eq_none_iff] at hB
      constructor
      · intro _
        omega
      · intro _
        rfl
    | some c2 =>
      rw [onlyRentalsCol_eq_some_iff] at hB
      constructor
      · intro h
        exact absurd h (compareWith_ne_schemaError df1 df2 c1 c2)
      · intro h
        rw [hA, hB] at h
        simp at h

/-- C6 counterexample: when both inputs carry the same count column name
`rentals_05_2005`, the merge suffixes the columns to `rentals_05_2005_x` and
`rentals_05_2005_y`, so the original name is absent from the join and the
column lookup fails with a `KeyError` instead of producing an output. -/
theorem compare_rentals_same_name_collision :
    compare_rentals ⟨["rentals_05_2005"], [(1, [3])]⟩ ⟨["rentals_05_2005"], [(1, [5])]⟩ =
      Except.error (CompareError.keyError "rentals_05_2005") ∧
    mergedColumns ⟨["rentals_05_2005"], [(1, [3])]⟩ ⟨["rentals_05_2005"], [(1, [5])]⟩ =
      ["rentals_05_2005_x", "rentals_05_2005_y"] :=
  ⟨rfl, rfl⟩

/-- C6 (amended): for input tables each with exactly one count column, when
the two count column names are distinct, `compare_rentals` succeeds and its
output contains both input count columns under their original names together
with the `difference` column. -/
theorem compare_rentals_distinct_columns_kept (df1 df2 : Table) (c1 c2 : String)
    (hc1 : onlyRentalsCol df1 = some c1) (hc2 : onlyRentalsCol df2 = some c2)
    (hne : c1 ≠ c2) :
    ∃ out, compare_rentals df1 df2 = Except.ok out ∧
      c1 ∈ out.valueCols ∧ c2 ∈ out.valueCols ∧ "difference" ∈ out.valueCols := by
  obtain ⟨hin1, hin2, i2, i1, hl2, hl1⟩ := compare_rentals_ok_of_distinct hc1 hc2 hne
  refine ⟨_, compare_rentals_eq_ok hc1 hc2 hl2 hl1, ?_, ?_, ?_⟩
  · exact List.mem_append_left _ hin1
  · exact List.mem_append_left _ hin2
  · exact List.mem_append_right _ (List.mem_singleton_self _)

/-- Witness for C6 (amended) at concrete inputs with distinct column names. -/
theorem compare_rentals_distinct_columns_kept_witness :
    ∃ out,
      compare_rentals ⟨["rentals_05_2005"], [((1 : Int), [(3 : Int)])]⟩
          ⟨["rentals_06_2005"], [((1 : Int), [(5 : Int)])]⟩ = Except.ok out ∧
      "rentals_05_2005" ∈ out.valueCols ∧ "rentals_06_2005" ∈ out.valueCols ∧
      "difference" ∈ out.valueCols :=
  compare_rentals_distinct_columns_kept
    ⟨["rentals_05_2005"], [(1, [3])]⟩ ⟨["rentals_06_2005"], [(1, [5])]⟩
    "rentals_05_2005" "rentals_06_2005" rfl rfl (by decide)

/-- C7 counterexample: two schema-valid tables with no `customer_id` in
common but the same count column name do not return an empty result: the
lookup of the suffixed-away column raises a `KeyError`. -/
theorem compare_rentals_disjoint_same_name_error :
    rentalsCols ⟨["rentals_05_2005"], [(1, [3])]⟩ = ["rentals_05_2005"] ∧
    rentalsCols ⟨["rentals_05_2005"], [(2, [4])]⟩ = ["rentals_05_2005"] ∧
    List.inter (List.map Prod.fst [((1 : Int), [(3 : Int)])])
      (List.map Prod.fst [((2 : Int), [(4 : Int)])]) = [] ∧
    compare_rentals ⟨["rentals_05_2005"], [(1, [3])]⟩ ⟨["rentals_05_2005"], [(2, [4])]⟩ =
      Except.error (CompareError.keyError "rentals_05_2005") :=
  ⟨rfl, rfl, rfl, rfl⟩

/-- C7 (amended): empty inputs are valid, non-exceptional cases:
`rental_count_month` on an empty row sequence returns a table with no rows,
and `compare_rentals` on two schema-valid tables with distinct count column
names and no `customer_id` in common succeeds with an empty row set. -/
theorem empty_and_disjoint_empty_results (month year : Nat) (df1 df2 : Table)
    (c1 c2 : String)
    (hc1 : onlyRentalsCol df1 = some c1) (hc2 : onlyRentalsCol df2 = some c2)
    (hne : c1 ≠ c2) (hdisj : ∀ l ∈ df1.rows, ∀ r ∈ df2.rows, l.1 ≠ r.1) :
    (rental_count_month [] month year).rows = [] ∧
    ∃ out, compare_rentals df1 df2 = Except.ok out ∧ out.rows = [] := by
  refine ⟨rfl, ?_⟩
  obtain ⟨-, -, i2, i1, hl2, hl1⟩ := compare_rentals_ok_of_distinct hc1 hc2 hne
  refine ⟨_, compare_rentals_eq_ok hc1 hc2 hl2 hl1, ?_⟩
  have hempty : mergeRows df1 df2 = [] := by
    cases hm : mergeRows df1 df2 with
    | nil => rfl
    | cons m ms =>
      have hmem : m ∈ mergeRows df1 df2 := by
        rw [hm]
        exact List.mem_cons_self _ _
      rcases mem_mergeRows.mp hmem with ⟨l, hl, r, hr, hkey, -⟩
      exact absurd hkey.symm (hdisj l hl r hr)
  show List.map _ (mergeRows df1 df2) = []
  rw [hempty]
  rfl

/-- Witness for C7 (amended): concrete schema-valid disjoint tables with
distinct column names give an empty, non-error result. -/
theorem empty_and_disjoint_empty_results_witness :
    (rental_count_month [] 5 2005).rows = [] ∧
    ∃ out,
      compare_rentals ⟨["rentals_05_2005"], [((1 : Int), [(3 : Int)])]⟩
          ⟨["rentals_06_2005"], [((2 : Int), [(4 : Int)])]⟩ = Except.ok out ∧
      out.rows = [] :=
  empty_and_disjoint_empty_results 5 2005
    ⟨["rentals_05_2005"], [(1, [3])]⟩ ⟨["rentals_06_2005"], [(2, [4])]⟩
    "rentals_05_2005" "rentals_06_2005" rfl rfl (by decide) (by decide)

end Sakila
